import Mathlib

/- Verification of the news aggregation and relevance pipeline of the
   podcast-news-app repository.  Shallow embedding of the core functions of
   backend/server/index.js (article fetching, relevance filtering, uplifting
   classifier, summarization, orchestrator backfill), backend/server/cache.js
   (CacheManager), the user schema usage gate of backend/models, and
   utils/fallbackAuth.  JavaScript strings are Lean String, machine numbers
   that stay small are Nat, and the fractional relevance scores are Rat. -/

/- ---------- JavaScript string helpers ---------- -/

/- JavaScript `a || b` on strings: the empty string is falsy. -/
def jsOr (a b : String) : String := if a = "" then b else a

/- `String.prototype.toLowerCase`. -/
def lowerStr (s : String) : String := String.mk (s.data.map Char.toLower)

def trimChars (l : List Char) : List Char :=
  ((l.dropWhile Char.isWhitespace).reverse.dropWhile Char.isWhitespace).reverse

/- `String.prototype.trim`. -/
def trimStr (s : String) : String := String.mk (trimChars s.data)

def charsStartWith : List Char → List Char → Bool
  | _, [] => true
  | [], _ :: _ => false
  | c :: cs, p :: ps => c == p && charsStartWith cs ps

def charsHave (pat : List Char) : List Char → Bool
  | [] => charsStartWith [] pat
  | c :: cs => charsStartWith (c :: cs) pat || charsHave pat cs

/- `s.includes(pat)`: pat occurs as a contiguous substring of s. -/
def strIncl (s pat : String) : Bool := charsHave pat.data s.data

/- `Array.prototype.join(sep)`. -/
def joinSep (sep : String) : List String → String
  | [] => ""
  | [x] => x
  | x :: y :: xs => x ++ sep ++ joinSep sep (y :: xs)

/- A JavaScript `Set` iterated in insertion order: keep first occurrences. -/
def dedupFirstAux (seen : List String) : List String → List String
  | [] => []
  | x :: xs => if x ∈ seen then dedupFirstAux seen xs else x :: dedupFirstAux (x :: seen) xs

def dedupFirst (l : List String) : List String := dedupFirstAux [] l

/- `s.split(/[^a-z0-9]+/i)`: splitting on each non-alphanumeric character
   yields the same tokens up to interleaved empty strings, which every caller
   filters out by a minimum-length test. -/
def splitNonAlnumAux (acc : List Char) : List Char → List String
  | [] => [String.mk acc.reverse]
  | c :: cs =>
    if c.isAlphanum then splitNonAlnumAux (c :: acc) cs
    else String.mk acc.reverse :: splitNonAlnumAux [] cs

def splitNonAlnum (s : String) : List String := splitNonAlnumAux [] s.data

/- `text.replace(/\s+/g, " ")`: collapse every whitespace run to one space. -/
def collapseWsAux : Bool → List Char → List Char
  | _, [] => []
  | prevWs, c :: cs =>
    if c.isWhitespace then
      if prevWs then collapseWsAux true cs else ' ' :: collapseWsAux true cs
    else c :: collapseWsAux false cs

def collapseWs (s : String) : String := String.mk (collapseWsAux false s.data)

/- `title.replace(/[\s\-–—]+$/g, "")`: strip trailing whitespace and dashes. -/
def stripTrailingDashWs (s : String) : String :=
  String.mk ((s.data.reverse.dropWhile (fun c => c.isWhitespace || c == '-' || c == '–' || c == '—')).reverse)

/- `s.slice(0, n)`. -/
def sliceTo (n : Nat) (s : String) : String := String.mk (s.data.take n)

/- ---------- Data model ---------- -/

/- Normalized provider record produced by fetchArticlesForTopic. -/
structure Article where
  title : String
  description : String
  url : String
  source : String
  publishedAt : String
  urlToImage : String
deriving DecidableEq, Repr

/- The geo object handed to the pipeline; absent fields are empty strings. -/
structure Geo where
  city : String
  region : String
  state : String
  country : String
  countryCode : String
deriving DecidableEq, Repr

def geoCity : Option Geo → String
  | some g => g.city
  | none => ""

def geoRegion : Option Geo → String
  | some g => g.region
  | none => ""

def geoState : Option Geo → String
  | some g => g.state
  | none => ""

def geoCountry : Option Geo → String
  | some g => g.country
  | none => ""

def geoCountryCode : Option Geo → String
  | some g => g.countryCode
  | none => ""

/- CORE_CATEGORIES set (index.js lines 116-125). -/
def CORE_CATEGORIES : List String :=
  ["business", "entertainment", "general", "health", "science", "sports", "technology", "world"]

/- ---------- RelevanceFilter (index.js lines 426-519) ---------- -/

/- geoTokens: the four geo fields, lowercased, kept when length >= 2, as a Set. -/
def geoTokens (geo : Option Geo) : List String :=
  dedupFirst (([geoCity geo, geoRegion geo, geoCountry geo, geoCountryCode geo].map lowerStr).filter
    (fun s => decide (2 ≤ s.length)))

/- topicTokens: topicLower split on non-alphanumerics, tokens of length >= 3, as a Set. -/
def topicTokens (topicLower : String) : List String :=
  dedupFirst (((splitNonAlnum topicLower).map (fun s => lowerStr (trimStr s))).filter
    (fun s => decide (s ≠ "" ∧ 3 ≤ s.length)))

/- textHasAny (index.js lines 443-449). -/
def textHasAny (text : String) (tokens : List String) : Bool :=
  tokens.any (fun tok => tok != "" && strIncl (lowerStr text) tok)

/- The first (strict) pass of filterRelevantArticles, as the keep-decision for
   one article (index.js lines 451-470). -/
def strictKeep (topicLower : String) (gts tts : List String) (a : Article) : Bool :=
  if topicLower = "local" then
    if 0 < gts.length then textHasAny a.title gts || textHasAny a.description gts
    else true
  else
    if topicLower ∈ CORE_CATEGORIES then true
    else 0 < tts.length && (textHasAny a.title tts || textHasAny a.description tts)

def strictPass (topic : String) (geo : Option Geo) (articles : List Article) : List Article :=
  articles.filter (strictKeep (lowerStr topic) (geoTokens geo) (topicTokens (lowerStr topic)))

/- One step of the scoring loops (index.js lines 481-484 and 487-490). -/
def scoreStep (t d : String) (s : ℚ) (g : String) : ℚ :=
  if g = "" then s
  else if strIncl t g then s + 2
  else if strIncl d g then s + 1
  else s

/- score(a) (index.js lines 476-495). -/
def score (topicLower : String) (gts tts : List String) (a : Article) : ℚ :=
  let t := lowerStr a.title
  let d := lowerStr a.description
  let s1 := gts.foldl (scoreStep t d) 0
  let s2 := if topicLower ∈ CORE_CATEGORIES then s1 else tts.foldl (scoreStep t d) s1
  if a.publishedAt ≠ "" then s2 + 1/2 else s2

/- The descending-score comparator passed to Array.prototype.sort. -/
def scoreRel (topicLower : String) (gts tts : List String) (x y : Article) : Prop :=
  score topicLower gts tts y ≤ score topicLower gts tts x

instance scoreRelDec (topicLower : String) (gts tts : List String) :
    DecidableRel (scoreRel topicLower gts tts) :=
  fun x y => inferInstanceAs (Decidable (score topicLower gts tts y ≤ score topicLower gts tts x))

/- `original.filter((a) => !selected.has(a))` where selected is the Set of
   strict-pass survivors (index.js lines 497-499). -/
def unsortedCandidates (topic : String) (geo : Option Geo) (articles : List Article) : List Article :=
  articles.filter (fun a => decide (a ∉ strictPass topic geo articles))

/- The candidates sorted by descending score; Array.prototype.sort in Node is
   stable, modelled by the stable insertionSort. -/
def scoredCandidates (topic : String) (geo : Option Geo) (articles : List Article) : List Article :=
  List.insertionSort (scoreRel (lowerStr topic) (geoTokens geo) (topicTokens (lowerStr topic)))
    (unsortedCandidates topic geo articles)

/- The articles the scored-backfill loop appends: it pushes candidates in
   sorted order until out.length reaches minCount (index.js lines 503-506). -/
def backfillTaken (topic : String) (geo : Option Geo) (articles : List Article) (minCount : Nat) : List Article :=
  (scoredCandidates topic geo articles).take (minCount - (strictPass topic geo articles).length)

/- The list after the strict pass plus the scored backfill loop. -/
def afterScoredBackfill (topic : String) (geo : Option Geo) (articles : List Article) (minCount : Nat) : List Article :=
  strictPass topic geo articles ++ backfillTaken topic geo articles minCount

/- The extra permissive append run only for "local" when still short of
   minCount (index.js lines 508-515); note it re-reads the pre-backfill
   selected set, so it can append candidates a second time. -/
def afterLocalAppend (topic : String) (geo : Option Geo) (articles : List Article) (minCount : Nat) : List Article :=
  if lowerStr topic = "local" ∧ (afterScoredBackfill topic geo articles minCount).length < minCount then
    afterScoredBackfill topic geo articles minCount ++
      (unsortedCandidates topic geo articles).take
        (minCount - (afterScoredBackfill topic geo articles minCount).length)
  else afterScoredBackfill topic geo articles minCount

/- filterRelevantArticles (index.js lines 426-519). -/
def filterRelevantArticles (topic : String) (geo : Option Geo) (articles : List Article) (minCount : Nat) : List Article :=
  if minCount ≤ (strictPass topic geo articles).length then (strictPass topic geo articles).take minCount
  else if (afterLocalAppend topic geo articles minCount).length = 0 then articles.take minCount
  else afterLocalAppend topic geo articles minCount

/- ---------- ContentClassifier: isUpliftingNews (index.js lines 385-423) ---------- -/

def upliftingKeywords : List String :=
  ["breakthrough", "achievement", "success", "victory", "triumph", "milestone",
   "innovation", "discovery", "progress", "advancement", "improvement", "growth",
   "celebration", "record", "award", "recognition", "honor", "accomplishment",
   "recovery", "healing", "cure", "treatment", "solution", "rescue", "save",
   "donation", "charity", "volunteer", "help", "support", "community", "kindness",
   "environmental", "sustainability", "green", "renewable", "clean energy", "conservation",
   "education", "learning", "scholarship", "graduation", "inspiration", "motivation",
   "art", "culture", "festival", "celebration", "music", "creativity", "beauty",
   "sports", "championship", "medal", "gold", "silver", "bronze", "teamwork",
   "technology", "invention", "startup", "funding", "investment", "entrepreneur",
   "hope", "optimism", "resilience", "courage", "determination", "perseverance"]

def negativeKeywords : List String :=
  ["death", "died", "killed", "murder", "crime", "violence", "attack",
   "war", "conflict", "battle", "fighting", "bomb", "explosion",
   "disaster", "accident", "crash", "fire", "flood", "earthquake",
   "crisis", "emergency", "danger", "threat", "risk", "problem",
   "scandal", "corruption", "fraud", "theft", "robbery", "arrest",
   "disease", "pandemic", "outbreak", "infection", "virus", "illness",
   "recession", "unemployment", "layoff", "bankruptcy", "debt", "loss"]

/- The combined lowercased text `${title} ${description}`. -/
def upliftingText (a : Article) : String :=
  lowerStr a.title ++ " " ++ lowerStr a.description

def isUpliftingNews (a : Article) : Bool :=
  let text := upliftingText a
  if negativeKeywords.any (fun k => strIncl text k) then false
  else upliftingKeywords.any (fun k => strIncl text k)

/- ---------- Orchestrator backfill (index.js lines 812-822 and 1037-1046) ---------- -/

structure SummaryItem where
  id : String
  title : String
  summary : String
  source : String
  url : String
  topic : String
deriving DecidableEq, Repr

/- `i.url || i.id`: the url-or-id dedup key. -/
def itemKey (i : SummaryItem) : String := if i.url = "" then i.id else i.url

/- The backfill loop body: skip candidates whose key is already seen, push the
   rest, stop as soon as three items exist. -/
def backfillAux : List SummaryItem → List SummaryItem → List String → List SummaryItem
  | [], items, _ => items
  | c :: rest, items, seen =>
    if itemKey c ∈ seen then backfillAux rest items seen
    else
      let items2 := items ++ [c]
      if 3 ≤ items2.length then items2
      else backfillAux rest items2 (itemKey c :: seen)

/- The guarded backfill exactly as written in both summarize handlers. -/
def ensureMinimumItems (items pool : List SummaryItem) : List SummaryItem :=
  if items.length < 3 ∧ pool ≠ [] then backfillAux pool items (items.map itemKey)
  else items

/- ---------- ArticleFetcher (index.js lines 127-290) ---------- -/

structure RawSource where
  name : Option String
deriving DecidableEq, Repr

/- A raw provider record; absent JSON fields are none. -/
structure RawArticle where
  title : Option String
  description : Option String
  url : Option String
  source : Option RawSource
  publishedAt : Option String
  urlToImage : Option String
deriving DecidableEq, Repr

/- The two provider query shapes; a none result is a rejected request. -/
structure Provider where
  everything : List String → Nat → Option (List RawArticle)
  topHeadlines : String → String → Nat → Option String → Option (List RawArticle)

/- `Math.min(Math.max(Number(maxResults) || 5, 1), 50)`: 0 is falsy in JS. -/
def clampPageSize (n : Nat) : Nat := min (max (if n = 0 then 5 else n) 1) 50

inductive Query where
  | everything (qParts : List String) (maxResults : Nat)
  | topHeadlines (category : String) (country : String) (maxResults : Nat) (extraQuery : Option String)
deriving DecidableEq, Repr

/- fetchArticlesEverything / fetchTopHeadlinesByCategory clamp their own
   pageSize before hitting the provider (index.js lines 129 and 143). -/
def runQuery (provider : Provider) : Query → Option (List RawArticle)
  | Query.everything q n => provider.everything q (clampPageSize n)
  | Query.topHeadlines c co n eq => provider.topHeadlines c co (clampPageSize n) eq

def ceilThird (n : Nat) : Nat := (n + 2) / 3

def ceilHalf (n : Nat) : Nat := (n + 1) / 2

/- The concurrent branch queries of the "local" strategy
   (index.js lines 220-249), in push order. -/
def localQueries (city region countryCode : String) (pageSize : Nat) : List Query :=
  (if city ≠ "" then
    [Query.topHeadlines "general" countryCode (ceilThird pageSize) (some ("\"" ++ city ++ "\"")),
     Query.everything ["title:" ++ city] (ceilThird pageSize),
     Query.everything [city] (ceilThird pageSize)]
   else []) ++
  (if region ≠ "" then
    [Query.topHeadlines "general" countryCode (ceilThird pageSize) (some ("\"" ++ region ++ "\"")),
     Query.everything ["title:" ++ region] (ceilThird pageSize),
     Query.everything [region] (ceilThird pageSize)]
   else []) ++
  (if countryCode ≠ "" then [Query.topHeadlines "general" countryCode (ceilHalf pageSize) none]
   else []) ++
  [Query.topHeadlines "general" "" (ceilHalf pageSize) none]

def generalOtherTopics : List String :=
  ["business", "entertainment", "health", "science", "sports", "technology", "world"]

/- The "general" fan-out (index.js lines 186-219): each branch catches its own
   failure and yields [], so the settled merge never fails; empty or
   title-less records are dropped. -/
def generalFetch (provider : Provider) (countryCode : String) : List RawArticle :=
  ((generalOtherTopics.map (fun category =>
      if category = "world" then ((provider.everything ["world"] (clampPageSize 1)).getD []).take 1
      else ((provider.topHeadlines category countryCode (clampPageSize 1) none).getD []).take 1)).flatten).filter
    (fun a => a.title.getD "" != "")

/- The raw (pre-normalization) article list fetched for a topic: the strategy
   selection of fetchArticlesForTopic (index.js lines 180-273).  An error is a
   provider rejection that propagates (category and free-text strategies have
   no catch of their own). -/
def fetchRawForTopic (provider : Provider) (topic : String) (geo : Option Geo) (maxResults : Nat) :
    Except String (List RawArticle) :=
  let countryCode := jsOr (geoCountry geo) (geoCountryCode geo)
  let region := jsOr (geoRegion geo) (geoState geo)
  let city := geoCity geo
  let queryParts := [topic] ++ (if region ≠ "" then [region] else []) ++ (if city ≠ "" then [city] else [])
  let pageSize := clampPageSize maxResults
  let normalizedTopic := lowerStr topic
  if normalizedTopic = "general" then Except.ok (generalFetch provider countryCode)
  else if normalizedTopic = "local" then
    Except.ok (((((localQueries city region countryCode pageSize).map (runQuery provider)).filterMap id).flatten).take pageSize)
  else if normalizedTopic ∈ CORE_CATEGORIES ∧ normalizedTopic ≠ "world" then
    let bias := jsOr city region
    match provider.topHeadlines normalizedTopic countryCode (clampPageSize pageSize)
        (if bias ≠ "" then some bias else none) with
    | none => Except.error "NewsAPI error"
    | some arts =>
      if arts.length < min 5 pageSize ∧ bias ≠ "" then
        match provider.everything [normalizedTopic, bias] (clampPageSize (pageSize - arts.length)) with
        | none => Except.error "NewsAPI error"
        | some extra => Except.ok (arts ++ extra)
      else Except.ok arts
  else
    match provider.everything queryParts (clampPageSize pageSize) with
    | none => Except.error "NewsAPI error"
    | some arts => Except.ok arts

/- Per-article normalization (index.js lines 275-282). -/
def normalizeArticle (a : RawArticle) : Article :=
  ⟨a.title.getD "", a.description.getD "", a.url.getD "",
   ((a.source.bind RawSource.name).getD ""), a.publishedAt.getD "", a.urlToImage.getD ""⟩

structure FetchResult where
  articles : List Article
  note : Option String
deriving DecidableEq, Repr

/- cache.getNewsKey (cache.js lines 1338-1341). -/
def getNewsKey (topic : String) (geo : Option Geo) (size : Nat) : String :=
  let geoStr := match geo with
    | some g => g.country ++ "-" ++ g.region ++ "-" ++ g.city
    | none => "no-geo"
  "news:" ++ topic ++ ":" ++ geoStr ++ ":" ++ toString size

/- fetchArticlesForTopic (index.js lines 159-290).  The value written to the
   cache on a miss is the very FetchResult returned, so the returned list and
   the cached list are one and the same. -/
def fetchArticlesForTopic (newsapiKey : String) (cacheMap : String → Option FetchResult)
    (provider : Provider) (topic : String) (geo : Option Geo) (maxResults : Nat) :
    Except String FetchResult :=
  let pageSize := clampPageSize maxResults
  if newsapiKey = "" then Except.ok ⟨[], some "Missing NEWSAPI_KEY"⟩
  else
    match cacheMap (getNewsKey topic geo pageSize) with
    | some cached => Except.ok cached
    | none =>
      match fetchRawForTopic provider topic geo maxResults with
      | Except.error e => Except.error e
      | Except.ok raw => Except.ok ⟨raw.map normalizeArticle, none⟩

def resultArticles : Except String FetchResult → List Article
  | Except.ok r => r.articles
  | Except.error _ => []

/- The property claimed of the returned list: no two entries share the same
   non-empty url. -/
def noDupUrls (l : List Article) : Prop :=
  l.Pairwise (fun a b => a.url = "" ∨ b.url = "" ∨ a.url ≠ b.url)

/- ---------- SummarizationStage (index.js lines 292-381) ---------- -/

structure ChatRequest where
  system : String
  prompt : String
  maxTokens : ℚ
  temperature : ℚ

/- The `base` string naming topic and geography (index.js lines 293-296). -/
def summaryBase (topic : String) (geo : Option Geo) : String :=
  let parts := [trimStr topic] ++
    (if geoRegion geo ≠ "" then [geoRegion geo] else []) ++
    (if jsOr (geoCountry geo) (geoCountryCode geo) ≠ "" then [jsOr (geoCountry geo) (geoCountryCode geo)] else [])
  joinSep " " (parts.filter (fun s => s != ""))

/- The numbered article block fed to the prompt (index.js lines 315-330). -/
def articleBlock (articles : List Article) : String :=
  joinSep "\n\n" ((articles.take 4).mapIdx (fun i a =>
    let title := trimStr (collapseWs (stripTrailingDashWs a.title))
    let description := sliceTo 150 (trimStr (collapseWs a.description))
    let src := jsOr a.source "Unknown"
    toString (i + 1) ++ ". **" ++ title ++ "** (" ++ src ++ ")\n" ++ description))

def upliftingPrefixStr (goodNewsOnly : Bool) : String := if goodNewsOnly then "uplifting " else ""

def summaryPrompt (topic : String) (articles : List Article) (wordCount : Nat) (goodNewsOnly : Bool) : String :=
  let p := upliftingPrefixStr goodNewsOnly
  "Create a " ++ toString wordCount ++ "-word " ++ p ++ topic ++ " news summary in podcast style.\n\nArticles:\n" ++
  articleBlock articles ++
  "\n\nRequirements:\n- Start with \"Here\x27s your " ++ p ++ topic ++
  " news.\"\n- Cover key stories in conversational tone\n- Connect related stories naturally\n- Focus on most significant developments\n- Target " ++
  toString wordCount ++ " words exactly"

/- The deterministic fallback of the catch block (index.js lines 377-379):
   first three titles, empties dropped. -/
def summaryFallback (topic : String) (articles : List Article) (goodNewsOnly : Bool) : String :=
  let titles := ((articles.take 3).map (fun a => a.title)).filter (fun t => t != "")
  "Here\x27s your " ++ upliftingPrefixStr goodNewsOnly ++ topic ++ " news. " ++ joinSep ". " titles ++ "."

/- summarizeArticles; the Bool records whether the LLM was called.  The llm
   argument is the external completion service: none models a thrown or empty
   completion. -/
def summarizeArticles (openaiKey : String) (llm : ChatRequest → Option String)
    (topic : String) (geo : Option Geo) (articles : List Article) (wordCount : Nat)
    (goodNewsOnly : Bool) : String × Bool :=
  let base := summaryBase topic geo
  if articles.length = 0 then ("No recent coverage found for " ++ base ++ ".", false)
  else if openaiKey = "" then
    ("Here\x27s your " ++ upliftingPrefixStr goodNewsOnly ++ topic ++ " news. " ++
      joinSep ". " ((articles.take 3).map (fun a => a.title)) ++ ".", false)
  else
    let req : ChatRequest :=
      ⟨"You are a professional news podcaster. Create engaging, conversational summaries with a warm, informative tone.",
       summaryPrompt topic articles wordCount goodNewsOnly,
       min ((wordCount : ℚ) * (6/5)) 1200, 3/5⟩
    match llm req with
    | some content =>
      let summary := trimStr content
      if summary = "" then (summaryFallback topic articles goodNewsOnly, true)
      else (summary, true)
    | none => (summaryFallback topic articles goodNewsOnly, true)

/- ---------- UsageGate (models user schema lines 123-152, fallbackAuth lines 369-390) ---------- -/

/- Dates are compared via toDateString, i.e. by calendar day; a day is an
   abstract index. -/
structure StoredUser where
  isPremium : Bool
  dailyUsageCount : Nat
  lastUsageDay : Nat
deriving DecidableEq, Repr

structure UsageCheck where
  allowed : Bool
  reason : String
  dailyCount : Option Nat
deriving DecidableEq, Repr

/- userSchema.methods.canFetchNews: the reset is applied (and persisted via
   save) before the quota is evaluated; the returned pair is (result, the user
   document after the call). -/
def canFetchNews (today : Nat) (u : StoredUser) : UsageCheck × StoredUser :=
  let u2 := if u.lastUsageDay ≠ today then ⟨u.isPremium, 0, today⟩ else u
  if u2.isPremium then (⟨true, "premium", none⟩, u2)
  else if 1 ≤ u2.dailyUsageCount then (⟨false, "daily_limit_reached", some u2.dailyUsageCount⟩, u2)
  else (⟨true, "free_quota", some u2.dailyUsageCount⟩, u2)

/- fallbackAuth.canFetchNews: identical logic over the in-memory user. -/
def fallbackCanFetchNews (today : Nat) (u : StoredUser) : UsageCheck × StoredUser :=
  let u2 := if u.lastUsageDay ≠ today then ⟨u.isPremium, 0, today⟩ else u
  if u2.isPremium then (⟨true, "premium", none⟩, u2)
  else if 1 ≤ u2.dailyUsageCount then (⟨false, "daily_limit_reached", some u2.dailyUsageCount⟩, u2)
  else (⟨true, "free_quota", some u2.dailyUsageCount⟩, u2)

/- ---------- CacheManager (cache.js lines 1294-1335) ---------- -/

/- The networked backend and the JSON codec, both of which may fail. -/
structure RedisBackend (V : Type) where
  getStr : String → Except String (Option String)
  setEx : String → Nat → String → Except String Unit
  delKey : String → Except String Unit
  parse : String → Except String V
  stringify : V → Except String String

/- The in-process fallback Map. -/
def MapState (V : Type) := List (String × V)

def mapLookup {V : Type} (m : MapState V) (k : String) : Option V :=
  match m with
  | [] => none
  | (k2, v) :: rest => if k2 = k then some v else mapLookup rest k

def mapInsert {V : Type} (m : MapState V) (k : String) (v : V) : MapState V :=
  (k, v) :: m.filter (fun p => p.1 != k)

def mapErase {V : Type} (m : MapState V) (k : String) : MapState V :=
  m.filter (fun p => p.1 != k)

/- The body of the try block of CacheManager.get: on the connected path the
   stored string is parsed unless it is falsy. -/
def rawCacheGet {V : Type} (be : RedisBackend V) (connected : Bool) (st : MapState V) (k : String) :
    Except String (Option V) :=
  if connected then
    match be.getStr k with
    | Except.error e => Except.error e
    | Except.ok none => Except.ok none
    | Except.ok (some s) =>
      if s = "" then Except.ok none
      else
        match be.parse s with
        | Except.error e => Except.error e
        | Except.ok v => Except.ok (some v)
  else Except.ok (mapLookup st k)

/- The body of the try block of CacheManager.set; the deferred timeout
   deletion of the fallback entry is real time and not modelled. -/
def rawCacheSet {V : Type} (be : RedisBackend V) (connected : Bool) (st : MapState V)
    (k : String) (v : V) (ttl : Nat) : Except String (MapState V) :=
  if connected then
    match be.stringify v with
    | Except.error e => Except.error e
    | Except.ok s =>
      match be.setEx k ttl s with
      | Except.error e => Except.error e
      | Except.ok _ => Except.ok st
  else Except.ok (mapInsert st k v)

def rawCacheDel {V : Type} (be : RedisBackend V) (connected : Bool) (st : MapState V) (k : String) :
    Except String (MapState V) :=
  if connected then
    match be.delKey k with
    | Except.error e => Except.error e
    | Except.ok _ => Except.ok st
  else Except.ok (mapErase st k)

/- The public operations: the surrounding catch converts every failure into a
   miss (get) or a no-op (set, del).  An Except.error result would model an
   exception reaching the caller. -/
def cacheGet {V : Type} (be : RedisBackend V) (connected : Bool) (st : MapState V) (k : String) :
    Except String (Option V) :=
  match rawCacheGet be connected st k with
  | Except.ok v => Except.ok v
  | Except.error _ => Except.ok none

def cacheSet {V : Type} (be : RedisBackend V) (connected : Bool) (st : MapState V)
    (k : String) (v : V) (ttl : Nat) : Except String (MapState V) :=
  match rawCacheSet be connected st k v ttl with
  | Except.ok st2 => Except.ok st2
  | Except.error _ => Except.ok st

def cacheDel {V : Type} (be : RedisBackend V) (connected : Bool) (st : MapState V) (k : String) :
    Except String (MapState V) :=
  match rawCacheDel be connected st k with
  | Except.ok st2 => Except.ok st2
  | Except.error _ => Except.ok st

/- ---------- Concrete inputs used by witnesses and counterexamples ---------- -/

def exA : Article := ⟨"aaa", "", "", "", "", ""⟩

def exB : Article := ⟨"zebra facts", "", "", "", "2024", ""⟩

def cexRawA : RawArticle := ⟨some "A", none, some "http://x/a", none, none, none⟩

/- A provider whose free-text search returns the same record twice. -/
def cexProviderDup : Provider := ⟨fun _ _ => some [cexRawA, cexRawA], fun _ _ _ _ => some []⟩

/- A provider answering every query with one article. -/
def cexProviderOne : Provider := ⟨fun _ _ => some [cexRawA], fun _ _ _ _ => some [cexRawA]⟩

def cexGeoFull : Geo := ⟨"springfield", "illinois", "", "US", "US"⟩

def cexPool : List SummaryItem :=
  [⟨"c1", "", "", "", "u1", ""⟩, ⟨"c2", "", "", "", "u2", ""⟩, ⟨"c3", "", "", "", "u3", ""⟩]

def cexNegArticle : Article := ⟨"breakthrough despite death", "", "", "", "", ""⟩

def failingBackendNat : RedisBackend Nat :=
  ⟨fun _ => Except.error "redis down", fun _ _ _ => Except.error "redis down",
   fun _ => Except.error "redis down", fun _ => Except.error "bad json",
   fun _ => Except.error "bad json"⟩

/- ---------- Helper lemmas ---------- -/

lemma isUpliftingNews_eq (a : Article) :
    isUpliftingNews a =
      (!negativeKeywords.any (fun k => strIncl (upliftingText a) k) &&
        upliftingKeywords.any (fun k => strIncl (upliftingText a) k)) := by
  unfold isUpliftingNews
  cases h : negativeKeywords.any (fun k => strIncl (upliftingText a) k) <;> simp [h]

/- ---------- C2 ---------- -/

/-- C2: canFetchNews (database and fallback implementations) resets
dailyUsageCount to 0 and moves lastUsageDate to the current day before the
quota is evaluated whenever the stored day differs from today; hence a free
user arriving on a new calendar day is allowed, and after every call the
stored day is today with the count reset on a day change. -/
theorem quota_rollover_c2 (today : Nat) (u : StoredUser) :
    (u.lastUsageDay ≠ today →
      (canFetchNews today u).2.dailyUsageCount = 0 ∧ (canFetchNews today u).2.lastUsageDay = today ∧
      (fallbackCanFetchNews today u).2.dailyUsageCount = 0 ∧
      (fallbackCanFetchNews today u).2.lastUsageDay = today) ∧
    (u.isPremium = false → u.lastUsageDay ≠ today →
      (canFetchNews today u).1.allowed = true ∧ (fallbackCanFetchNews today u).1.allowed = true) ∧
    ((canFetchNews today u).2.lastUsageDay = today ∧
      (fallbackCanFetchNews today u).2.lastUsageDay = today) := by
  by_cases h : u.lastUsageDay = today <;>
    cases hp : u.isPremium <;>
    by_cases hc : 1 ≤ u.dailyUsageCount <;>
    simp [canFetchNews, fallbackCanFetchNews, h, hp, hc]

theorem quota_rollover_c2_witness :
    (canFetchNews 1 ⟨false, 1, 0⟩).1.allowed = true ∧
    (fallbackCanFetchNews 1 ⟨false, 1, 0⟩).1.allowed = true :=
  (quota_rollover_c2 1 ⟨false, 1, 0⟩).2.1 rfl (by decide)

/- ---------- C9 ---------- -/

/-- C9: the public cache operations never propagate an exception: for every
backend, state, key, value and ttl they return an ok outcome, and whenever the
underlying try-block body fails, get yields a miss and set and del leave the
fallback state unchanged. -/
theorem cache_never_throws_c9 {V : Type} (be : RedisBackend V) (connected : Bool)
    (st : MapState V) (k : String) (v : V) (ttl : Nat) :
    ((∃ r, cacheGet be connected st k = Except.ok r) ∧
     (∃ st2, cacheSet be connected st k v ttl = Except.ok st2) ∧
     (∃ st2, cacheDel be connected st k = Except.ok st2)) ∧
    ((∀ e, rawCacheGet be connected st k = Except.error e →
        cacheGet be connected st k = Except.ok none) ∧
     (∀ e, rawCacheSet be connected st k v ttl = Except.error e →
        cacheSet be connected st k v ttl = Except.ok st) ∧
     (∀ e, rawCacheDel be connected st k = Except.error e →
        cacheDel be connected st k = Except.ok st)) := by
  unfold cacheGet cacheSet cacheDel
  cases hg : rawCacheGet be connected st k <;>
    cases hs : rawCacheSet be connected st k v ttl <;>
    cases hd : rawCacheDel be connected st k <;> simp

theorem cache_never_throws_c9_witness :
    cacheGet failingBackendNat true [] "k" = Except.ok none ∧
    cacheSet failingBackendNat true [] "k" 7 900 = Except.ok [] ∧
    cacheDel failingBackendNat true [] "k" = Except.ok [] :=
  ⟨(cache_never_throws_c9 failingBackendNat true [] "k" 7 900).2.1 "redis down" rfl,
   (cache_never_throws_c9 failingBackendNat true [] "k" 7 900).2.2.1 "bad json" rfl,
   (cache_never_throws_c9 failingBackendNat true [] "k" 7 900).2.2.2 "redis down" rfl⟩

/- ---------- C8 ---------- -/

/-- C8: isUpliftingNews returns false whenever any negative keyword occurs in
the lowercased title-plus-description text, regardless of positive keywords;
and it returns true exactly when no negative keyword occurs and some positive
keyword does. -/
theorem uplifting_classifier_c8 (a : Article) :
    ((∃ k ∈ negativeKeywords, strIncl (upliftingText a) k = true) → isUpliftingNews a = false) ∧
    (isUpliftingNews a = true ↔
      ((∀ k ∈ negativeKeywords, strIncl (upliftingText a) k = false) ∧
       ∃ k ∈ upliftingKeywords, strIncl (upliftingText a) k = true)) := by
  rw [isUpliftingNews_eq]
  constructor
  · rintro ⟨k, hk, hs⟩
    have : negativeKeywords.any (fun k => strIncl (upliftingText a) k) = true :=
      List.any_eq_true.mpr ⟨k, hk, hs⟩
    simp [this]
  · constructor
    · intro h
      rcases Bool.and_eq_true _ _ |>.mp h with ⟨h1, h2⟩
      refine ⟨?_, List.any_eq_true.mp h2⟩
      intro k hk
      by_contra hfk
      have : negativeKeywords.any (fun k => strIncl (upliftingText a) k) = true :=
        List.any_eq_true.mpr ⟨k, hk, by simpa using hfk⟩
      simp [this] at h1
    · rintro ⟨h1, h2⟩
      have hneg : negativeKeywords.any (fun k => strIncl (upliftingText a) k) = false := by
        by_contra hx
        rcases List.any_eq_true.mp (by simpa using hx) with ⟨k, hk, hs⟩
        simp [h1 k hk] at hs
      simp [hneg, List.any_eq_true.mpr h2]

theorem uplifting_classifier_c8_witness : isUpliftingNews cexNegArticle = false :=
  (uplifting_classifier_c8 cexNegArticle).1 ⟨"death", by decide, by decide⟩

/- ---------- C5 ---------- -/

/-- C5: with no provider key configured, fetchArticlesForTopic yields an empty
list with the note Missing NEWSAPI_KEY for every topic and geo; the relevance
filter applied to the empty list is empty; and summarizeArticles on an empty
list returns the deterministic no-coverage message with no LLM call made. -/
theorem missing_key_pipeline_c5 (cacheMap : String → Option FetchResult) (provider : Provider)
    (topic : String) (geo : Option Geo) (maxResults minCount : Nat) (openaiKey : String)
    (llm : ChatRequest → Option String) (wordCount : Nat) (goodNewsOnly : Bool) :
    fetchArticlesForTopic "" cacheMap provider topic geo maxResults =
      Except.ok ⟨[], some "Missing NEWSAPI_KEY"⟩ ∧
    filterRelevantArticles topic geo [] minCount = [] ∧
    summarizeArticles openaiKey llm topic geo [] wordCount goodNewsOnly =
      ("No recent coverage found for " ++ summaryBase topic geo ++ ".", false) := by
  refine ⟨rfl, ?_, rfl⟩
  unfold filterRelevantArticles afterLocalAppend afterScoredBackfill backfillTaken
    scoredCandidates unsortedCandidates strictPass
  simp

/- ---------- C1 ---------- -/

lemma unsortedCandidates_eq_filter (topic : String) (geo : Option Geo) (articles : List Article) :
    unsortedCandidates topic geo articles =
      articles.filter
        (fun a => !(strictKeep (lowerStr topic) (geoTokens geo) (topicTokens (lowerStr topic)) a)) := by
  unfold unsortedCandidates
  apply List.filter_congr
  intro a ha
  by_cases h : strictKeep (lowerStr topic) (geoTokens geo) (topicTokens (lowerStr topic)) a = true <;>
    simp [strictPass, List.mem_filter, ha, h]

lemma strict_add_candidates_length (topic : String) (geo : Option Geo) (articles : List Article) :
    (strictPass topic geo articles).length + (unsortedCandidates topic geo articles).length =
      articles.length := by
  rw [unsortedCandidates_eq_filter]
  have hperm :=
    (List.filter_append_perm
      (strictKeep (lowerStr topic) (geoTokens geo) (topicTokens (lowerStr topic))) articles).length_eq
  rw [List.length_append] at hperm
  simpa [strictPass] using hperm

lemma length_scoredCandidates (topic : String) (geo : Option Geo) (articles : List Article) :
    (scoredCandidates topic geo articles).length = (unsortedCandidates topic geo articles).length :=
  (List.perm_insertionSort _ _).length_eq

lemma afterScoredBackfill_length (topic : String) (geo : Option Geo) (articles : List Article)
    (minCount : Nat) (h : (strictPass topic geo articles).length < minCount) :
    min minCount articles.length ≤ (afterScoredBackfill topic geo articles minCount).length := by
  have h1 := strict_add_candidates_length topic geo articles
  have h2 := length_scoredCandidates topic geo articles
  simp only [afterScoredBackfill, backfillTaken, List.length_append, List.length_take]
  omega

/-- C1: for every topic, geo, article list and minCount, the relevance filter
returns at least min(minCount, input length) articles; in particular a
non-empty input with minCount at least 1 yields a non-empty output. -/
theorem relevance_min_yield_c1 (topic : String) (geo : Option Geo) (articles : List Article)
    (minCount : Nat) :
    min minCount articles.length ≤ (filterRelevantArticles topic geo articles minCount).length ∧
    (articles ≠ [] → 1 ≤ minCount → filterRelevantArticles topic geo articles minCount ≠ []) := by
  have hmain :
      min minCount articles.length ≤ (filterRelevantArticles topic geo articles minCount).length := by
    unfold filterRelevantArticles
    by_cases h1 : minCount ≤ (strictPass topic geo articles).length
    · rw [if_pos h1]
      have hs : (strictPass topic geo articles).length ≤ articles.length :=
        List.length_filter_le _ _
      rw [List.length_take]
      omega
    · rw [if_neg h1]
      have hbase := afterScoredBackfill_length topic geo articles minCount (by omega)
      have hloc :
          (afterScoredBackfill topic geo articles minCount).length ≤
            (afterLocalAppend topic geo articles minCount).length := by
        unfold afterLocalAppend
        split
        · rw [List.length_append]; omega
        · exact le_refl _
      by_cases h2 : (afterLocalAppend topic geo articles minCount).length = 0
      · rw [if_pos h2, List.length_take]
      · rw [if_neg h2]
        omega
  refine ⟨hmain, fun hne hmc => ?_⟩
  have hpos : 0 < articles.length := List.length_pos.mpr hne
  have : 0 < (filterRelevantArticles topic geo articles minCount).length := by omega
  exact List.ne_nil_of_length_pos this

theorem relevance_min_yield_c1_witness : filterRelevantArticles "technology" none [exA] 1 ≠ [] :=
  (relevance_min_yield_c1 "technology" none [exA] 1).2 (by simp) (by simp)

/- ---------- C4 ---------- -/

lemma backfillAux_length_ge (pool : List SummaryItem) :
    ∀ (items : List SummaryItem) (seen : List String),
      min 3 (items.length + (((pool.map itemKey).toFinset) \ seen.toFinset).card) ≤
        (backfillAux pool items seen).length := by
  induction pool with
  | nil =>
    intro items seen
    simp [backfillAux]
  | cons c rest ih =>
    intro items seen
    unfold backfillAux
    by_cases hmem : itemKey c ∈ seen
    · rw [if_pos hmem]
      have hset : ((c :: rest).map itemKey).toFinset \ seen.toFinset =
          (rest.map itemKey).toFinset \ seen.toFinset := by
        rw [List.map_cons, List.toFinset_cons,
          Finset.insert_sdiff_of_mem _ (List.mem_toFinset.mpr hmem)]
      rw [hset]
      exact ih items seen
    · rw [if_neg hmem]
      by_cases h3 : 3 ≤ (items ++ [c]).length
      · rw [if_pos h3]
        rw [List.length_append, List.length_singleton] at h3 ⊢
        omega
      · rw [if_neg h3]
        have hrec := ih (items ++ [c]) (itemKey c :: seen)
        refine le_trans ?_ hrec
        apply min_le_min (le_refl 3)
        rw [List.length_append, List.length_singleton]
        have hknotin : itemKey c ∉ seen.toFinset := fun hx => hmem (List.mem_toFinset.mp hx)
        have hins : ((c :: rest).map itemKey).toFinset \ seen.toFinset =
            insert (itemKey c) ((rest.map itemKey).toFinset \ seen.toFinset) := by
          rw [List.map_cons, List.toFinset_cons, Finset.insert_sdiff_of_not_mem _ hknotin]
        have hera : (rest.map itemKey).toFinset \ (itemKey c :: seen).toFinset =
            ((rest.map itemKey).toFinset \ seen.toFinset).erase (itemKey c) := by
          rw [List.toFinset_cons, Finset.sdiff_insert]
        rw [hins, hera]
        by_cases hkS : itemKey c ∈ (rest.map itemKey).toFinset \ seen.toFinset
        · rw [Finset.insert_eq_self.mpr hkS, Finset.card_erase_of_mem hkS]
          have := Finset.card_pos.mpr ⟨_, hkS⟩
          omega
        · rw [Finset.card_insert_of_not_mem hkS, Finset.erase_eq_of_not_mem hkS]
          omega

/-- C4: in the response assembly of both summarize handlers, if the global
candidate pool holds at least 3 entries distinct under the url-or-id key, the
backfilled items list has length at least 3. -/
theorem orchestrator_backfill_c4 (items pool : List SummaryItem)
    (h : 3 ≤ ((pool.map itemKey).dedup).length) :
    3 ≤ (ensureMinimumItems items pool).length := by
  unfold ensureMinimumItems
  by_cases hi : items.length < 3 ∧ pool ≠ []
  · rw [if_pos hi]
    have hb := backfillAux_length_ge pool items (items.map itemKey)
    have hcard : 3 ≤ ((pool.map itemKey).toFinset).card := by
      rw [List.card_toFinset]; exact h
    have hseen : ((items.map itemKey).toFinset).card ≤ items.length := by
      have := List.toFinset_card_le (items.map itemKey)
      simpa using this
    have hsd := Finset.le_card_sdiff ((items.map itemKey).toFinset) ((pool.map itemKey).toFinset)
    omega
  · rw [if_neg hi]
    by_cases hp : pool = []
    · subst hp; simp at h
    · have : ¬ items.length < 3 := fun hlt => hi ⟨hlt, hp⟩
      omega

theorem orchestrator_backfill_c4_witness : 3 ≤ (ensureMinimumItems [] cexPool).length :=
  orchestrator_backfill_c4 [] cexPool (by decide)

/- ---------- C7 ---------- -/

lemma foldl_scoreStep (t d : String) (l : List String) :
    ∀ init : ℚ,
      l.foldl (scoreStep t d) init =
        init + 2 * (l.countP (fun g => g != "" && strIncl t g) : ℚ) +
          (l.countP (fun g => g != "" && !(strIncl t g) && strIncl d g) : ℚ) := by
  induction l with
  | nil => intro init; simp
  | cons g l ih =>
    intro init
    rw [List.foldl_cons, ih, List.countP_cons, List.countP_cons]
    unfold scoreStep
    by_cases h1 : g = ""
    · simp [h1]
    · by_cases h2 : strIncl t g = true
      · simp [h1, h2]; ring
      · by_cases h3 : strIncl d g = true
        · simp [h1, h2, h3]; ring
        · simp [h1, h2, h3]

lemma score_closed_form (topicLower : String) (gts tts : List String) (a : Article) :
    score topicLower gts tts a =
      2 * (gts.countP (fun g => g != "" && strIncl (lowerStr a.title) g) : ℚ) +
        (gts.countP (fun g =>
          g != "" && !(strIncl (lowerStr a.title) g) && strIncl (lowerStr a.description) g) : ℚ) +
        (if topicLower ∈ CORE_CATEGORIES then 0 else
          2 * (tts.countP (fun g => g != "" && strIncl (lowerStr a.title) g) : ℚ) +
            (tts.countP (fun g =>
              g != "" && !(strIncl (lowerStr a.title) g) && strIncl (lowerStr a.description) g) : ℚ)) +
        (if a.publishedAt ≠ "" then 1/2 else 0) := by
  unfold score
  by_cases hcore : topicLower ∈ CORE_CATEGORIES <;>
    by_cases hpub : a.publishedAt = "" <;>
      simp [hcore, hpub, foldl_scoreStep] <;> ring

lemma pairwise_scoredCandidates (topic : String) (geo : Option Geo) (articles : List Article) :
    List.Pairwise (scoreRel (lowerStr topic) (geoTokens geo) (topicTokens (lowerStr topic)))
      (scoredCandidates topic geo articles) := by
  haveI ht : IsTotal Article
      (scoreRel (lowerStr topic) (geoTokens geo) (topicTokens (lowerStr topic))) :=
    ⟨fun a b => le_total _ _⟩
  haveI htr : IsTrans Article
      (scoreRel (lowerStr topic) (geoTokens geo) (topicTokens (lowerStr topic))) :=
    ⟨fun _ _ _ h1 h2 => le_trans h2 h1⟩
  exact List.sorted_insertionSort _ _

lemma backfillTaken_not_strict (topic : String) (geo : Option Geo) (articles : List Article)
    (minCount : Nat) :
    ∀ a ∈ backfillTaken topic geo articles minCount,
      strictKeep (lowerStr topic) (geoTokens geo) (topicTokens (lowerStr topic)) a = false := by
  intro a ha
  have h1 : a ∈ scoredCandidates topic geo articles := List.take_subset _ _ ha
  have h2 : a ∈ unsortedCandidates topic geo articles :=
    (List.perm_insertionSort _ _).mem_iff.mp h1
  rw [unsortedCandidates_eq_filter] at h2
  have h3 := (List.mem_filter.mp h2).2
  simpa using h3

lemma afterScored_le_afterLocal (topic : String) (geo : Option Geo) (articles : List Article)
    (minCount : Nat) :
    (afterScoredBackfill topic geo articles minCount).length ≤
      (afterLocalAppend topic geo articles minCount).length := by
  unfold afterLocalAppend
  split
  · rw [List.length_append]; omega
  · exact le_refl _

/-- C7: in the scored backfill of the relevance filter, every article not kept
by the strict pass is scored with +2 per geo token occurring in the title, +1
per geo token occurring only in the description, the same +2/+1 per topic
token when the topic is not a core category, and +1/2 for a non-empty publish
timestamp; and the articles the scored backfill appends follow the strict
survivors in non-increasing order of this score. -/
theorem scored_backfill_c7 (topic : String) (geo : Option Geo) (articles : List Article)
    (minCount : Nat) (h : (strictPass topic geo articles).length < minCount) :
    (∀ a ∈ unsortedCandidates topic geo articles,
      score (lowerStr topic) (geoTokens geo) (topicTokens (lowerStr topic)) a =
        2 * ((geoTokens geo).countP (fun g => g != "" && strIncl (lowerStr a.title) g) : ℚ) +
          ((geoTokens geo).countP (fun g =>
            g != "" && !(strIncl (lowerStr a.title) g) && strIncl (lowerStr a.description) g) : ℚ) +
          (if lowerStr topic ∈ CORE_CATEGORIES then 0 else
            2 * ((topicTokens (lowerStr topic)).countP
                (fun g => g != "" && strIncl (lowerStr a.title) g) : ℚ) +
              ((topicTokens (lowerStr topic)).countP (fun g =>
                g != "" && !(strIncl (lowerStr a.title) g) && strIncl (lowerStr a.description) g) : ℚ)) +
          (if a.publishedAt ≠ "" then 1/2 else 0)) ∧
    (∀ a ∈ backfillTaken topic geo articles minCount,
      strictKeep (lowerStr topic) (geoTokens geo) (topicTokens (lowerStr topic)) a = false) ∧
    List.Pairwise (scoreRel (lowerStr topic) (geoTokens geo) (topicTokens (lowerStr topic)))
      (backfillTaken topic geo articles minCount) ∧
    (∃ rest, filterRelevantArticles topic geo articles minCount =
      strictPass topic geo articles ++ backfillTaken topic geo articles minCount ++ rest) := by
  refine ⟨fun a _ => score_closed_form _ _ _ a,
    backfillTaken_not_strict topic geo articles minCount, ?_, ?_⟩
  · unfold backfillTaken
    exact List.Pairwise.sublist (List.take_sublist _ _) (pairwise_scoredCandidates topic geo articles)
  · unfold filterRelevantArticles
    rw [if_neg (by omega : ¬ minCount ≤ (strictPass topic geo articles).length)]
    by_cases h2 : (afterLocalAppend topic geo articles minCount).length = 0
    · rw [if_pos h2]
      have h3 : (afterScoredBackfill topic geo articles minCount).length = 0 := by
        have := afterScored_le_afterLocal topic geo articles minCount
        omega
      have h4 : strictPass topic geo articles = [] ∧
          backfillTaken topic geo articles minCount = [] := by
        have h5 : afterScoredBackfill topic geo articles minCount = [] :=
          List.eq_nil_of_length_eq_zero h3
        unfold afterScoredBackfill at h5
        exact List.append_eq_nil.mp h5
      rw [h4.1, h4.2]
      exact ⟨articles.take minCount, by simp⟩
    · rw [if_neg h2]
      unfold afterLocalAppend afterScoredBackfill
      split
      · exact ⟨(unsortedCandidates topic geo articles).take
          (minCount -
            (strictPass topic geo articles ++ backfillTaken topic geo articles minCount).length),
          by rw [List.append_assoc]⟩
      · exact ⟨[], by simp⟩

theorem scored_backfill_c7_witness :
    List.Pairwise (scoreRel (lowerStr "zebra stripes") (geoTokens none)
      (topicTokens (lowerStr "zebra stripes")))
      (backfillTaken "zebra stripes" none [exA, exB] 6) :=
  (scored_backfill_c7 "zebra stripes" none [exA, exB] 6 (by decide)).2.2.1

/- ---------- Fetch path lemmas shared by C3, C6 and C10 ---------- -/

lemma fetch_miss_eq (newsapiKey : String) (cacheMap : String → Option FetchResult)
    (provider : Provider) (topic : String) (geo : Option Geo) (maxResults : Nat)
    (raw : List RawArticle) (hk : newsapiKey ≠ "")
    (hc : cacheMap (getNewsKey topic geo (clampPageSize maxResults)) = none)
    (hr : fetchRawForTopic provider topic geo maxResults = Except.ok raw) :
    fetchArticlesForTopic newsapiKey cacheMap provider topic geo maxResults =
      Except.ok ⟨raw.map normalizeArticle, none⟩ := by
  simp [fetchArticlesForTopic, hk, hc, hr]

/- ---------- C6 ---------- -/

lemma fetchRaw_local_eq (provider : Provider) (geo : Option Geo) (maxResults : Nat) :
    fetchRawForTopic provider "local" geo maxResults =
      Except.ok ((((localQueries (geoCity geo) (jsOr (geoRegion geo) (geoState geo))
          (jsOr (geoCountry geo) (geoCountryCode geo)) (clampPageSize maxResults)).map
          (runQuery provider)).filterMap id).flatten.take (clampPageSize maxResults)) := by
  rfl

/-- C6 amended: for the "local" topic the fetcher builds at most 8 concurrent
provider queries (three city-based when a city is present, three region-based
when a region is present, one country-only category query when a country code
is present, and one unconditional generic fallback), and on a cache miss with
maxResults at least 1 the merged successful branch results are truncated to at
most maxResults articles. -/
theorem local_fanout_c6_amended (city region countryCode : String) (pageSize : Nat)
    (newsapiKey : String) (cacheMap : String → Option FetchResult) (provider : Provider)
    (geo : Option Geo) (maxResults : Nat) :
    (localQueries city region countryCode pageSize).length ≤ 8 ∧
    (1 ≤ maxResults →
      cacheMap (getNewsKey "local" geo (clampPageSize maxResults)) = none →
      ∀ r, fetchArticlesForTopic newsapiKey cacheMap provider "local" geo maxResults = Except.ok r →
        r.articles.length ≤ maxResults) := by
  constructor
  · by_cases h1 : city = "" <;> by_cases h2 : region = "" <;> by_cases h3 : countryCode = "" <;>
      simp [localQueries, h1, h2, h3]
  · intro hmax hc r hr
    have hclamp : clampPageSize maxResults ≤ maxResults := by
      unfold clampPageSize
      rw [if_neg (by omega : ¬ maxResults = 0)]
      omega
    by_cases hk : newsapiKey = ""
    · simp only [fetchArticlesForTopic, hk, if_pos rfl] at hr
      cases hr
      simp
    · have he := fetch_miss_eq newsapiKey cacheMap provider "local" geo maxResults _ hk hc
        (fetchRaw_local_eq provider geo maxResults)
      rw [he] at hr
      cases hr
      have hlen : (((((localQueries (geoCity geo) (jsOr (geoRegion geo) (geoState geo))
          (jsOr (geoCountry geo) (geoCountryCode geo)) (clampPageSize maxResults)).map
          (runQuery provider)).filterMap id).flatten.take (clampPageSize maxResults)).map
            normalizeArticle).length ≤ clampPageSize maxResults := by
        rw [List.length_map, List.length_take]
        omega
      exact le_trans hlen hclamp

theorem local_fanout_c6_witness :
    (FetchResult.mk (List.replicate 6 (normalizeArticle cexRawA)) none).articles.length ≤ 6 :=
  (local_fanout_c6_amended "springfield" "illinois" "us" 6 "k" (fun _ => none) cexProviderOne
      (some cexGeoFull) 6).2 (by omega) rfl
    (FetchResult.mk (List.replicate 6 (normalizeArticle cexRawA)) none) (by rfl)

/-- C6 counterexample: with city, region and country code all present the
"local" strategy builds 8 queries, not at most 7; and with maxResults = 0 the
returned list holds 5 articles, more than maxResults. -/
theorem local_fanout_c6_counterexample :
    7 < (localQueries "springfield" "illinois" "us" 6).length ∧
    (resultArticles (fetchArticlesForTopic "k" (fun _ => none) cexProviderOne "local"
        (some cexGeoFull) 0)).length = 5 := by
  constructor
  · decide
  · rfl

/- ---------- C3 ---------- -/

/-- C3 counterexample: for a free-text topic whose provider answer repeats one
record, the returned list holds two articles with the same non-empty url, so
the fetcher output is not deduplicated by the url key. -/
theorem fetch_dedup_c3_counterexample :
    ¬ noDupUrls (resultArticles (fetchArticlesForTopic "k" (fun _ => none) cexProviderDup
        "zebras" none 5)) := by
  have he : resultArticles (fetchArticlesForTopic "k" (fun _ => none) cexProviderDup
      "zebras" none 5) =
      [⟨"A", "", "http://x/a", "", "", ""⟩, ⟨"A", "", "http://x/a", "", "", ""⟩] := by rfl
  rw [he]
  intro hnd
  rcases List.pairwise_cons.mp hnd with ⟨hfirst, -⟩
  have hcontra := hfirst ⟨"A", "", "http://x/a", "", "", ""⟩ (by simp)
  rcases hcontra with hx | hx | hx <;> simp at hx

/-- C3 amended: on a cache miss with the provider key configured, the list
fetchArticlesForTopic caches and returns is exactly the fetched raw list
normalized per-article, preserving order and multiplicity; no deduplication
is applied, so for every url the output holds as many articles with that url
as the raw fetch produced (duplicates under the url key may survive). -/
theorem fetch_normalize_c3_amended (newsapiKey : String) (cacheMap : String → Option FetchResult)
    (provider : Provider) (topic : String) (geo : Option Geo) (maxResults : Nat)
    (raw : List RawArticle) (hk : newsapiKey ≠ "")
    (hc : cacheMap (getNewsKey topic geo (clampPageSize maxResults)) = none)
    (hr : fetchRawForTopic provider topic geo maxResults = Except.ok raw) :
    fetchArticlesForTopic newsapiKey cacheMap provider topic geo maxResults =
      Except.ok ⟨raw.map normalizeArticle, none⟩ ∧
    (resultArticles (fetchArticlesForTopic newsapiKey cacheMap provider topic geo maxResults)).length =
      raw.length ∧
    ∀ u : String,
      (resultArticles (fetchArticlesForTopic newsapiKey cacheMap provider topic geo
          maxResults)).countP (fun a => a.url == u) =
        raw.countP (fun rA => (normalizeArticle rA).url == u) := by
  have he := fetch_miss_eq newsapiKey cacheMap provider topic geo maxResults raw hk hc hr
  refine ⟨he, ?_, fun u => ?_⟩
  · rw [he]; simp [resultArticles]
  · rw [he]
    simp only [resultArticles]
    rw [List.countP_map]
    rfl

theorem fetch_normalize_c3_amended_witness :
    fetchArticlesForTopic "k" (fun _ => none) cexProviderDup "zebras" none 5 =
      Except.ok ⟨[cexRawA, cexRawA].map normalizeArticle, none⟩ :=
  (fetch_normalize_c3_amended "k" (fun _ => none) cexProviderDup "zebras" none 5
    [cexRawA, cexRawA] (by decide) rfl (by rfl)).1

/- ---------- C10 ---------- -/

/-- C10: every article in a list returned by fetchArticlesForTopic on a cache
miss is fully normalized: it arises from a fetched raw record with each of the
six fields defaulting to the empty string when absent and source flattened
from the provider record source.name. -/
theorem fetch_normalized_fields_c10 (newsapiKey : String) (cacheMap : String → Option FetchResult)
    (provider : Provider) (topic : String) (geo : Option Geo) (maxResults : Nat) (r : FetchResult)
    (hc : cacheMap (getNewsKey topic geo (clampPageSize maxResults)) = none)
    (hr : fetchArticlesForTopic newsapiKey cacheMap provider topic geo maxResults = Except.ok r) :
    ∀ a ∈ r.articles, ∃ raws rawA,
      fetchRawForTopic provider topic geo maxResults = Except.ok raws ∧ rawA ∈ raws ∧
      a = normalizeArticle rawA ∧
      a.title = rawA.title.getD "" ∧ a.description = rawA.description.getD "" ∧
      a.url = rawA.url.getD "" ∧ a.source = (rawA.source.bind RawSource.name).getD "" ∧
      a.publishedAt = rawA.publishedAt.getD "" ∧ a.urlToImage = rawA.urlToImage.getD "" := by
  intro a ha
  by_cases hk : newsapiKey = ""
  · simp only [fetchArticlesForTopic, hk, if_pos rfl] at hr
    cases hr
    simp at ha
  · cases hraw : fetchRawForTopic provider topic geo maxResults with
    | error e =>
      simp only [fetchArticlesForTopic, hk, hc, hraw, if_neg hk] at hr
      simp at hr
    | ok raws =>
      have he := fetch_miss_eq newsapiKey cacheMap provider topic geo maxResults raws hk hc hraw
      rw [he] at hr
      cases hr
      simp only at ha
      rcases List.mem_map.mp ha with ⟨rawA, hin, hEq⟩
      subst hEq
      exact ⟨raws, rawA, rfl, hin, rfl, rfl, rfl, rfl, rfl, rfl, rfl⟩

theorem fetch_normalized_fields_c10_witness :
    ∃ raws rawA, fetchRawForTopic cexProviderOne "zebras" none 5 = Except.ok raws ∧ rawA ∈ raws ∧
      normalizeArticle cexRawA = normalizeArticle rawA ∧
      (normalizeArticle cexRawA).title = rawA.title.getD "" ∧
      (normalizeArticle cexRawA).description = rawA.description.getD "" ∧
      (normalizeArticle cexRawA).url = rawA.url.getD "" ∧
      (normalizeArticle cexRawA).source = (rawA.source.bind RawSource.name).getD "" ∧
      (normalizeArticle cexRawA).publishedAt = rawA.publishedAt.getD "" ∧
      (normalizeArticle cexRawA).urlToImage = rawA.urlToImage.getD "" :=
  fetch_normalized_fields_c10 "k" (fun _ => none) cexProviderOne "zebras" none 5
    ⟨[normalizeArticle cexRawA], none⟩ rfl (by rfl) (normalizeArticle cexRawA) (by simp)
